import Mathlib

/-!
Shallow embedding of the tomato-clock-waybar timer engine (src/timer.rs,
src/persistence.rs, src/workflow.rs, src/status.rs).

Modelling conventions:
* chrono `Duration` values are whole seconds, modelled as `Int` (chrono
  durations are signed); every duration the engine manipulates is built
  from `Duration::seconds` / `Duration::minutes`, so no sub-second part
  ever arises.
* `DateTime<Local>` timestamps are opaque `Int` values; `Local::now()` is
  threaded into each step as an explicit `now` parameter.
* The Rust engine runs `timer_logic_task`, a loop that serves one input at
  a time (a 1-second tick or a command).  Three branches of the tick arm
  execute `return`, ending the task: the loop then stops serving inputs
  forever.  This is modelled by the `halted` flag of `EngineState`; a step
  on a halted engine leaves it unchanged.
* `u32`/`u64`/`i64` casts are modelled exactly (two's complement) where
  they occur; `u32 as i64` and the minute-to-second conversions cannot
  overflow an `i64` and are modelled as exact arithmetic on `Int`.
-/

namespace TomatoClock

/-- TimerState enum from src/timer.rs. -/
inductive TimerState where
  | idle
  | running
  | paused
  | completed
deriving DecidableEq, Repr

/-- Status from src/status.rs. -/
structure Status where
  name : String
  description : Option String
  color : Option String
  icon : Option String
deriving DecidableEq, Repr

/-- Phase from src/workflow.rs; `duration` is in minutes (`u32`). -/
structure Phase where
  name : String
  duration : Nat
  description : Option String
  color : Option String
  icon : Option String
deriving DecidableEq, Repr

/-- Workflow from src/workflow.rs. -/
structure Workflow where
  name : String
  phases : List Phase
  description : Option String
  repeatable : Bool
deriving DecidableEq, Repr

/-- Phase::new. -/
def Phase.new (name : String) (duration : Nat) : Phase :=
  ⟨name, duration, none, none, none⟩

/-- Default Status ("work") from src/status.rs. -/
def Status.default : Status :=
  ⟨"work", some "Working on tasks", some "#ff5555", some "🔨", ⟩

/-- Default Workflow ("Default Pomodoro") from src/workflow.rs. -/
def Workflow.default : Workflow :=
  ⟨"Default Pomodoro",
   [⟨"Work", 25, some "Focus on work", some "#ff5555", some "🔨"⟩,
    ⟨"Break", 5, some "Take a short break", some "#50fa7b", some "☕"⟩],
   some "Standard Pomodoro technique workflow",
   true⟩

/-- TimerInfo (the EngineSnapshot) from src/timer.rs.  Durations are in
seconds. -/
structure TimerInfo where
  state : TimerState
  current_phase : Option Phase
  time_remaining : Option Int
  elapsed_time : Int
  current_status : Option Status
  current_workflow : Option Workflow
  start_time : Option Int
  pause_time : Option Int
deriving DecidableEq, Repr

/-- TimerInfo::default. -/
def TimerInfo.default : TimerInfo :=
  ⟨.idle, none, none, 0, none, none, none, none⟩

/-- TimerCommand from src/timer.rs. -/
inductive TimerCommand where
  | start (workflow : Option Workflow) (status : Option Status)
  | pause
  | resume
  | stop
  | skip
deriving DecidableEq, Repr

/-- An input served by the timer_logic_task loop: either the 1-second
interval tick or a command received on the channel. -/
inductive Input where
  | tick
  | command (c : TimerCommand)
deriving DecidableEq, Repr

/-- Engine state: the shared snapshot plus whether timer_logic_task has
executed one of its `return` statements (after which no further input is
served). -/
structure EngineState where
  info : TimerInfo
  halted : Bool
deriving DecidableEq, Repr

/-- Iterator::position on the phase list, as used by
`workflow.phases.iter().position(|p| p.name == current_phase.name)`. -/
def position (pred : Phase → Bool) : List Phase → Option Nat
  | [] => none
  | a :: as => if pred a then some 0 else (position pred as).map (· + 1)

/-- Placeholder phase for the (always in-bounds) list indexing sites of
the Rust source. -/
def dummyPhase : Phase := ⟨"", 0, none, none, none⟩

/-- Phase-transition block of the tick arm of timer_logic_task
(src/timer.rs lines 192-258), entered after `time_remaining` was set to
`None` by tick exhaustion.  The `Bool` result records whether the branch
executed `return` (ending the task). -/
def phaseAdvanceTick (info : TimerInfo) : TimerInfo × Bool :=
  match info.current_workflow, info.current_phase with
  | some workflow, some current_phase =>
    match position (fun p => p.name == current_phase.name) workflow.phases with
    | some current_index =>
      if current_index + 1 < workflow.phases.length then
        let next_phase := workflow.phases.getD (current_index + 1) dummyPhase
        ({ info with current_phase := some next_phase,
                     time_remaining := some (60 * (next_phase.duration : Int)),
                     elapsed_time := 0 }, false)
      else if workflow.repeatable then
        let next_phase := workflow.phases.getD 0 dummyPhase
        ({ info with current_phase := some next_phase,
                     time_remaining := some (60 * (next_phase.duration : Int)),
                     elapsed_time := 0 }, false)
      else
        ({ info with state := .completed, current_phase := none,
                     time_remaining := none }, true)
    | none =>
        ({ info with state := .idle, current_phase := none,
                     time_remaining := none }, true)
  | _, _ => ({ info with state := .idle }, true)

/-- Tick arm of timer_logic_task (src/timer.rs lines 163-267). -/
def applyTick (info : TimerInfo) : TimerInfo × Bool :=
  if info.state = .running then
    match info.time_remaining with
    | some remaining =>
      if 1 < remaining then
        ({ info with time_remaining := some (remaining - 1),
                     elapsed_time := info.elapsed_time + 1 }, false)
      else
        phaseAdvanceTick { info with time_remaining := none }
    | none => (info, false)
  else (info, false)

/-- Start handler of timer_logic_task (src/timer.rs lines 272-319). -/
def applyStart (now : Int) (info : TimerInfo) (workflow : Option Workflow)
    (status : Option Status) : TimerInfo :=
  let workflow_to_use := workflow.getD Workflow.default
  let status_to_use := status.getD Status.default
  let initial_phase := workflow_to_use.phases.head?
  let info1 :=
    match initial_phase with
    | some phase =>
        { info with current_phase := some phase,
                    time_remaining := some (60 * (phase.duration : Int)) }
    | none => info
  { info1 with current_workflow := some workflow_to_use,
               current_status := some status_to_use,
               state := .running,
               start_time := some now,
               elapsed_time := 0 }

/-- Pause handler of timer_logic_task (src/timer.rs lines 321-352). -/
def applyPause (now : Int) (info : TimerInfo) : TimerInfo :=
  if info.state = .running then
    { info with state := .paused, pause_time := some now }
  else info

/-- Resume handler of timer_logic_task (src/timer.rs lines 354-385). -/
def applyResume (info : TimerInfo) : TimerInfo :=
  if info.state = .paused then
    { info with state := .running, pause_time := none }
  else info

/-- Stop handler of timer_logic_task (src/timer.rs lines 387-406). -/
def applyStop (info : TimerInfo) : TimerInfo :=
  { info with state := .idle, current_phase := none, time_remaining := none,
              start_time := none, pause_time := none }

/-- Skip handler of timer_logic_task (src/timer.rs lines 408-475). -/
def applySkip (info : TimerInfo) : TimerInfo :=
  if info.state = .running ∨ info.state = .paused then
    match info.current_workflow, info.current_phase with
    | some workflow, some current_phase =>
      match position (fun p => p.name == current_phase.name) workflow.phases with
      | some current_index =>
        if current_index + 1 < workflow.phases.length then
          let next_phase := workflow.phases.getD (current_index + 1) dummyPhase
          let was_paused := info.state = .paused
          let info1 :=
            { info with current_phase := some next_phase,
                        time_remaining := some (60 * (next_phase.duration : Int)),
                        elapsed_time := 0 }
          if was_paused then
            { info1 with state := .running, pause_time := none }
          else info1
        else
          { info with state := .completed, current_phase := none,
                      time_remaining := none }
      | none => info
    | _, _ => info
  else info

/-- One iteration of the timer_logic_task select loop serving one input.
A halted engine (one whose task has returned) serves nothing. -/
def step (now : Int) (s : EngineState) (i : Input) : EngineState :=
  if s.halted then s
  else
    match i with
    | .tick =>
        let r := applyTick s.info
        ⟨r.1, r.2⟩
    | .command (.start w st) => ⟨applyStart now s.info w st, false⟩
    | .command .pause => ⟨applyPause now s.info, false⟩
    | .command .resume => ⟨applyResume s.info, false⟩
    | .command .stop => ⟨applyStop s.info, false⟩
    | .command .skip => ⟨applySkip s.info, false⟩

/-- Run the engine over a list of timed inputs. -/
def run (s : EngineState) (l : List (Int × Input)) : EngineState :=
  l.foldl (fun s p => step p.1 s p.2) s

/-- Apply `n` ticks. -/
def tickN : Nat → EngineState → EngineState
  | 0, s => s
  | n + 1, s => tickN n (step 0 s .tick)

/-- Engine state at start from an all-empty snapshot. -/
def engineInit : EngineState := ⟨TimerInfo.default, false⟩

/-- PersistentState from src/persistence.rs.  `elapsed_seconds` is a `u64`
(a natural number below 2^64 in every state the engine writes). -/
structure PersistentState where
  timer_state : TimerState
  current_phase : Option Phase
  current_status : Option Status
  current_workflow : Option Workflow
  start_time : Option Int
  elapsed_seconds : Nat
  last_saved : Int
deriving DecidableEq, Repr

/-- PersistentState::default. -/
def PersistentState.default (now : Int) : PersistentState :=
  ⟨.idle, none, none, none, none, 0, now⟩

/-- Rust `u64 as i64` (two's complement reinterpretation). -/
def i64ofU64 (n : Nat) : Int :=
  if n < 2 ^ 63 then (n : Int) else (n : Int) - 2 ^ 64

/-- Rust `i64 as u64` (two's complement reinterpretation). -/
def u64ofI64 (x : Int) : Nat :=
  (x % 2 ^ 64).toNat

/-- Timer::new recovery (src/timer.rs lines 85-137): adopt the persisted
record, drop pause_time, and recompute time_remaining only when the
recovered state is Running with a current phase.  No wall-clock input is
consulted. -/
def timerNew (p : PersistentState) : TimerInfo :=
  let timer_info : TimerInfo :=
    ⟨p.timer_state, p.current_phase, none, i64ofU64 p.elapsed_seconds,
     p.current_status, p.current_workflow, p.start_time, none⟩
  if timer_info.state = .running ∧ timer_info.current_phase.isSome then
    match timer_info.current_phase with
    | some phase =>
        let total_duration : Int := 60 * (phase.duration : Int)
        let elapsed := timer_info.elapsed_time
        if elapsed < total_duration then
          { timer_info with time_remaining := some (total_duration - elapsed) }
        else
          { timer_info with time_remaining := some 0 }
    | none => timer_info
  else timer_info

/-- save_timer_state (src/timer.rs lines 509-523) composed with
persistence::update, which overwrites last_saved with the current time
before storing the record. -/
def saveRecord (info : TimerInfo) (now : Int) : PersistentState :=
  ⟨info.state, info.current_phase, info.current_status, info.current_workflow,
   info.start_time, u64ofI64 info.elapsed_time, now⟩

/-! Concrete scenario data used by the individual claims. -/

/-- The "Work" phase of the two-phase pomodoro workflow of the spec's
testable property. -/
def pomodoroWork : Phase := Phase.new "Work" 25

/-- The "Break" phase of the two-phase pomodoro workflow. -/
def pomodoroBreak : Phase := Phase.new "Break" 5

/-- The workflow [("Work",25),("Break",5)] with repeatable = true. -/
def pomodoroWorkflow : Workflow :=
  ⟨"Pomodoro", [pomodoroWork, pomodoroBreak], none, true⟩

/-- Engine state right after starting the pomodoro workflow from the
initial snapshot. -/
def pomodoroStarted : EngineState :=
  step 0 engineInit (.command (.start (some pomodoroWorkflow) none))

/-- A one-phase non-repeatable workflow [("Work",1)]. -/
def singleWorkflow : Workflow := ⟨"Single", [Phase.new "Work" 1], none, false⟩

/-- Engine state after starting singleWorkflow and letting its one
minute elapse (60 ticks). -/
def singleCompleted : EngineState :=
  tickN 60 (step 0 engineInit (.command (.start (some singleWorkflow) none)))

/-- A snapshot whose current phase name ("Ghost") does not occur in its
current workflow: the inconsistent-state situation of spec section 4.2
step 1. -/
def ghostSnapshot : EngineState :=
  ⟨⟨.running, some (Phase.new "Ghost" 5), some 10, 3, none,
    some singleWorkflow, some 0, none⟩, false⟩

/-- Like ghostSnapshot but with one second remaining, so that the next
tick runs the phase-advance lookup and misses. -/
def ghostTickSnapshot : EngineState :=
  ⟨⟨.running, some (Phase.new "Ghost" 5), some 1, 3, none,
    some singleWorkflow, some 0, none⟩, false⟩

/-- A persisted record in the Paused state, used to instantiate the
recovery claims. -/
def pausedRecord : PersistentState :=
  ⟨.paused, some (Phase.new "Work" 25), none, none, none, 42, 0⟩

/-- Invariant maintained by every input served from the all-empty initial
snapshot: time_remaining is Some exactly when current_phase is Some, a
current phase only exists in the Running or Paused states, and a current
phase implies a current workflow. -/
def Inv (info : TimerInfo) : Prop :=
  (info.time_remaining.isSome ↔ info.current_phase.isSome)
  ∧ (info.current_phase.isSome → info.state = .running ∨ info.state = .paused)
  ∧ (info.current_phase.isSome → info.current_workflow.isSome)

/-- The engine is live and running workflow W: not halted, Running, the
current phase belongs to W, and at least one second remains. -/
def RunningOn (W : Workflow) (s : EngineState) : Prop :=
  s.halted = false ∧ s.info.state = .running
  ∧ s.info.current_workflow = some W
  ∧ (∃ p, p ∈ W.phases ∧ s.info.current_phase = some p)
  ∧ (∃ r, s.info.time_remaining = some r ∧ 1 ≤ r)

/-! Helper lemmas about list search and indexing. -/

theorem position_lt_length (pred : Phase → Bool) :
    ∀ (l : List Phase) (i : Nat), position pred l = some i → i < l.length := by
  intro l
  induction l with
  | nil => intro i h; simp [position] at h
  | cons a as ih =>
      intro i h
      simp only [position] at h
      by_cases hp : pred a
      · simp [hp] at h
        simp only [List.length_cons]
        omega
      · simp [hp] at h
        obtain ⟨j, hj, hji⟩ := h
        have := ih j hj
        simp only [List.length_cons]
        omega

theorem getD_mem : ∀ (l : List Phase) (i : Nat) (d : Phase),
    i < l.length → l.getD i d ∈ l := by
  intro l
  induction l with
  | nil => intro i d h; simp at h
  | cons a as ih =>
      intro i d h
      cases i with
      | zero => simp
      | succ j =>
          simp only [List.getD_cons_succ]
          exact List.mem_cons_of_mem a (ih j d (by simpa using Nat.lt_of_succ_lt_succ h))

theorem position_some_of_mem (p : Phase) :
    ∀ (l : List Phase), p ∈ l →
      ∃ i, position (fun q => q.name == p.name) l = some i := by
  intro l
  induction l with
  | nil => intro h; simp at h
  | cons a as ih =>
      intro h
      by_cases hp : (a.name == p.name)
      · exact ⟨0, by simp [position, hp]⟩
      · have hmem : p ∈ as := by
          rcases List.mem_cons.mp h with rfl | hm
          · simp at hp
          · exact hm
        obtain ⟨i, hi⟩ := ih hmem
        exact ⟨i + 1, by simp [position, hp, hi]⟩

/-! Helper lemmas about ticking. -/

theorem tickN_add (m n : Nat) : ∀ s, tickN (m + n) s = tickN n (tickN m s) := by
  induction m with
  | zero => intro s; simp [tickN]
  | succ k ih =>
      intro s
      have : k + 1 + n = (k + n) + 1 := by omega
      rw [this]
      show tickN (k + n) (step 0 s .tick) = tickN n (tickN k (step 0 s .tick))
      exact ih (step 0 s .tick)

theorem tickN_countdown :
    ∀ (k : Nat) (info : TimerInfo) (r : Int),
      info.state = .running → info.time_remaining = some r → (k : Int) < r →
      tickN k ⟨info, false⟩ =
        ⟨{ info with time_remaining := some (r - k),
                     elapsed_time := info.elapsed_time + k }, false⟩ := by
  intro k
  induction k with
  | zero =>
      intro info r hst hr _
      cases info
      simp_all [tickN]
  | succ k ih =>
      intro info r hst hr hk
      have h1r : 1 < r := by
        have : (0 : Int) ≤ (k : Int) := Int.ofNat_nonneg k
        push_cast at hk
        omega
      have hstep : step 0 ⟨info, false⟩ .tick =
          ⟨{ info with time_remaining := some (r - 1),
                       elapsed_time := info.elapsed_time + 1 }, false⟩ := by
        simp [step, applyTick, hst, hr, h1r]
      show tickN k (step 0 ⟨info, false⟩ .tick) = _
      rw [hstep]
      rw [ih _ (r - 1) (by simp [hst]) (by simp) (by push_cast at hk ⊢; omega)]
      have e1 : r - 1 - (k : Int) = r - ((k + 1 : Nat) : Int) := by push_cast; ring
      have e2 : info.elapsed_time + 1 + (k : Int)
          = info.elapsed_time + ((k + 1 : Nat) : Int) := by push_cast; ring
      simp [e1, e2]

/-! Reachable-state invariant relating time_remaining, current_phase,
state and current_workflow. -/

theorem inv_phaseAdvanceTick (info : TimerInfo)
    (hst : info.state = .running)
    (hw : info.current_workflow.isSome)
    (hp : info.current_phase.isSome) :
    Inv (phaseAdvanceTick info).1 := by
  unfold phaseAdvanceTick
  split
  · next workflow current_phase heq1 heq2 =>
      split
      · next idx hpos =>
          split
          · exact ⟨by simp, fun _ => by simp [hst], by simp [heq1]⟩
          · split
            · exact ⟨by simp, fun _ => by simp [hst], by simp [heq1]⟩
            · exact ⟨by simp, by simp, by simp⟩
      · next hpos => exact ⟨by simp, by simp, by simp⟩
  · next hcatch =>
      obtain ⟨w, hw'⟩ := Option.isSome_iff_exists.mp hw
      obtain ⟨cp, hp'⟩ := Option.isSome_iff_exists.mp hp
      exact (hcatch w cp hw' hp').elim

theorem inv_applyTick (info : TimerInfo) (h : Inv info) :
    Inv (applyTick info).1 := by
  unfold applyTick
  split
  · next hst =>
      split
      · next r hr =>
          have hp : info.current_phase.isSome := h.1.mp (by simp [hr])
          split
          · next h1r =>
              exact ⟨by simpa using hp, fun _ => h.2.1 hp, fun _ => h.2.2 hp⟩
          · next h1r =>
              exact inv_phaseAdvanceTick _ (by simpa using hst)
                (by simpa using h.2.2 hp) (by simpa using hp)
      · next hr => exact h
  · next hst => exact h

theorem inv_applyStart (now : Int) (info : TimerInfo)
    (w : Option Workflow) (st : Option Status) (h : Inv info) :
    Inv (applyStart now info w st) := by
  unfold applyStart
  cases hph : (w.getD Workflow.default).phases.head? with
  | some phase => exact ⟨by simp [hph], fun _ => by simp, fun _ => by simp⟩
  | none =>
      exact ⟨by simpa [hph] using h.1, fun _ => by simp, fun _ => by simp⟩

theorem inv_applyPause (now : Int) (info : TimerInfo) (h : Inv info) :
    Inv (applyPause now info) := by
  unfold applyPause
  split
  · exact ⟨h.1, fun _ => by simp, h.2.2⟩
  · exact h

theorem inv_applyResume (info : TimerInfo) (h : Inv info) :
    Inv (applyResume info) := by
  unfold applyResume
  split
  · exact ⟨h.1, fun _ => by simp, h.2.2⟩
  · exact h

theorem inv_applyStop (info : TimerInfo) : Inv (applyStop info) := by
  exact ⟨by simp [applyStop], by simp [applyStop], by simp [applyStop]⟩

theorem inv_applySkip (info : TimerInfo) (h : Inv info) :
    Inv (applySkip info) := by
  unfold applySkip
  split
  · next hrp =>
      split
      · next workflow current_phase heq1 heq2 =>
          split
          · next idx hpos =>
              split
              · next hlt =>
                  dsimp only
                  split
                  · next hwp =>
                      exact ⟨by simp, fun _ => by simp, by simp [heq1]⟩
                  · next hwp =>
                      refine ⟨by simp, fun _ => ?_, by simp [heq1]⟩
                      rcases hrp with hr | hr
                      · simp [hr]
                      · exact absurd hr hwp
              · next hlt => exact ⟨by simp, by simp, by simp⟩
          · next hpos => exact h
      · next hcatch => exact h
  · next hrp => exact h

theorem inv_step (now : Int) (s : EngineState) (i : Input)
    (h : Inv s.info) : Inv (step now s i).info := by
  unfold step
  split
  · exact h
  · cases i with
    | tick => exact inv_applyTick _ h
    | command c =>
        cases c with
        | start w st => exact inv_applyStart _ _ _ _ h
        | pause => exact inv_applyPause _ _ h
        | resume => exact inv_applyResume _ h
        | stop => exact inv_applyStop _
        | skip => exact inv_applySkip _ h

theorem inv_run (l : List (Int × Input)) :
    ∀ s : EngineState, Inv s.info → Inv (run s l).info := by
  induction l with
  | nil => intro s h; exact h
  | cons p t ih =>
      intro s h
      exact ih (step p.1 s p.2) (inv_step p.1 s p.2 h)

theorem inv_engineInit : Inv engineInit.info := by
  refine ⟨by simp [engineInit, TimerInfo.default], ?_, ?_⟩ <;>
    simp [engineInit, TimerInfo.default]

/-! Preservation of RunningOn under ticks, for repeatable workflows with
positive phase durations. -/

theorem runningOn_tick (W : Workflow) (hrep : W.repeatable = true)
    (hdur : ∀ p ∈ W.phases, 1 ≤ p.duration) (s : EngineState)
    (h : RunningOn W s) : RunningOn W (step 0 s .tick) := by
  obtain ⟨hh, hst, hw, ⟨p, hpmem, hp⟩, ⟨r, hr, h1r⟩⟩ := h
  by_cases hlt : 1 < r
  · have hstep : step 0 s .tick =
        ⟨{ s.info with time_remaining := some (r - 1),
                       elapsed_time := s.info.elapsed_time + 1 }, false⟩ := by
      simp [step, hh, applyTick, hst, hr, hlt]
    rw [hstep]
    exact ⟨rfl, hst, hw, ⟨p, hpmem, hp⟩, ⟨r - 1, rfl, by omega⟩⟩
  · obtain ⟨idx, hpos⟩ := position_some_of_mem p W.phases hpmem
    have hlen : 0 < W.phases.length := List.length_pos.mpr (List.ne_nil_of_mem hpmem)
    by_cases hnext : idx + 1 < W.phases.length
    · have hstep : step 0 s .tick =
          ⟨{ s.info with
               current_phase := some (W.phases.getD (idx + 1) dummyPhase),
               time_remaining :=
                 some (60 * ((W.phases.getD (idx + 1) dummyPhase).duration : Int)),
               elapsed_time := 0 }, false⟩ := by
        simp [step, hh, applyTick, hst, hr, hlt, phaseAdvanceTick, hw, hp, hpos, hnext]
      rw [hstep]
      have hmem2 := getD_mem W.phases (idx + 1) dummyPhase hnext
      refine ⟨rfl, hst, hw, ⟨_, hmem2, rfl⟩, ⟨_, rfl, ?_⟩⟩
      have := hdur _ hmem2
      have : (1 : Int) ≤ ((W.phases.getD (idx + 1) dummyPhase).duration : Int) := by
        exact_mod_cast this
      omega
    · have hstep : step 0 s .tick =
          ⟨{ s.info with
               current_phase := some (W.phases.getD 0 dummyPhase),
               time_remaining :=
                 some (60 * ((W.phases.getD 0 dummyPhase).duration : Int)),
               elapsed_time := 0 }, false⟩ := by
        simp [step, hh, applyTick, hst, hr, hlt, phaseAdvanceTick, hw, hp, hpos,
              hnext, hrep]
      rw [hstep]
      have hmem2 := getD_mem W.phases 0 dummyPhase hlen
      refine ⟨rfl, hst, hw, ⟨_, hmem2, rfl⟩, ⟨_, rfl, ?_⟩⟩
      have := hdur _ hmem2
      have : (1 : Int) ≤ ((W.phases.getD 0 dummyPhase).duration : Int) := by
        exact_mod_cast this
      omega

theorem runningOn_tickN (W : Workflow) (hrep : W.repeatable = true)
    (hdur : ∀ p ∈ W.phases, 1 ≤ p.duration) :
    ∀ (n : Nat) (s : EngineState),
      RunningOn W s → RunningOn W (tickN n s) := by
  intro n
  induction n with
  | zero => intro s h; exact h
  | succ k ih =>
      intro s h
      exact ih (step 0 s .tick) (runningOn_tick W hrep hdur s h)

/-! Claim theorems. -/

/-- C1, counterexample: after Start (default workflow) followed by Pause,
time_remaining is still Some although the state is Paused, so the claimed
invariant "time_remaining is Some iff state == Running and current_phase
is Some" fails on a reachable snapshot. -/
theorem c1_counterexample :
    ¬ ((run engineInit [(0, .command (.start none none)),
                        (1, .command .pause)]).info.time_remaining.isSome
        ↔ ((run engineInit [(0, .command (.start none none)),
                            (1, .command .pause)]).info.state = .running
           ∧ (run engineInit [(0, .command (.start none none)),
                              (1, .command .pause)]).info.current_phase.isSome)) := by
  decide

/-- C1, amended: for every sequence of engine inputs applied to the
initial snapshot, time_remaining is Some iff current_phase is Some and
the state is Running or Paused (Pause keeps time_remaining Some, so
Paused must be allowed alongside Running). -/
theorem c1_amended (l : List (Int × Input)) :
    (run engineInit l).info.time_remaining.isSome
      ↔ ((run engineInit l).info.current_phase.isSome
         ∧ ((run engineInit l).info.state = .running
            ∨ (run engineInit l).info.state = .paused)) := by
  have h := inv_run l engineInit inv_engineInit
  constructor
  · intro hr
    exact ⟨h.1.mp hr, h.2.1 (h.1.mp hr)⟩
  · intro hp
    exact h.1.mpr hp.1

/-- C8: Pause is idempotent — issuing Pause twice in a row (at any two
times) yields exactly the snapshot produced by issuing it once. -/
theorem c8_pause_idempotent (now now' : Int) (s : EngineState) :
    step now' (step now s (.command .pause)) (.command .pause)
      = step now s (.command .pause) := by
  rcases s with ⟨info, halted⟩
  cases halted with
  | true => rfl
  | false =>
      show (⟨applyPause now' (applyPause now info), false⟩ : EngineState)
        = ⟨applyPause now info, false⟩
      have key : applyPause now' (applyPause now info) = applyPause now info := by
        unfold applyPause
        split
        · next hst => simp
        · next hst => simp [hst]
      rw [key]

/-- C5: after starting the repeatable workflow [("Work",25),("Break",5)],
25*60 ticks leave the engine Running in phase Break with 5 minutes
remaining and elapsed_time 0; 5*60 further ticks wrap back to Work with
the same reset; and no number of ticks ever reaches Completed. -/
theorem c5_pomodoro_loop :
    ((tickN (25 * 60) pomodoroStarted).info.state = .running
      ∧ (tickN (25 * 60) pomodoroStarted).info.current_phase = some pomodoroBreak
      ∧ (tickN (25 * 60) pomodoroStarted).info.time_remaining = some (5 * 60)
      ∧ (tickN (25 * 60) pomodoroStarted).info.elapsed_time = 0)
    ∧ ((tickN (5 * 60) (tickN (25 * 60) pomodoroStarted)).info.state = .running
      ∧ (tickN (5 * 60) (tickN (25 * 60) pomodoroStarted)).info.current_phase
          = some pomodoroWork
      ∧ (tickN (5 * 60) (tickN (25 * 60) pomodoroStarted)).info.time_remaining
          = some (25 * 60)
      ∧ (tickN (5 * 60) (tickN (25 * 60) pomodoroStarted)).info.elapsed_time = 0)
    ∧ (∀ n : Nat, (tickN n pomodoroStarted).info.state ≠ .completed) := by
  have hs1 : pomodoroStarted =
      ⟨⟨.running, some pomodoroWork, some 1500, 0, some Status.default,
        some pomodoroWorkflow, some 0, none⟩, false⟩ := by
    decide
  have hsplitA : tickN (25 * 60) pomodoroStarted
      = tickN 1 (tickN 1499 pomodoroStarted) := by
    show tickN (1499 + 1) pomodoroStarted = _
    exact tickN_add 1499 1 pomodoroStarted
  have hA : tickN (25 * 60) pomodoroStarted =
      ⟨⟨.running, some pomodoroBreak, some 300, 0, some Status.default,
        some pomodoroWorkflow, some 0, none⟩, false⟩ := by
    rw [hsplitA, hs1,
        tickN_countdown 1499 _ 1500 rfl rfl (by norm_num)]
    decide
  have hsplitB : tickN (5 * 60) (tickN (25 * 60) pomodoroStarted)
      = tickN 1 (tickN 299 (tickN (25 * 60) pomodoroStarted)) := by
    show tickN (299 + 1) _ = _
    exact tickN_add 299 1 _
  have hB : tickN (5 * 60) (tickN (25 * 60) pomodoroStarted) =
      ⟨⟨.running, some pomodoroWork, some 1500, 0, some Status.default,
        some pomodoroWorkflow, some 0, none⟩, false⟩ := by
    rw [hsplitB, hA,
        tickN_countdown 299 _ 300 rfl rfl (by norm_num)]
    decide
  refine ⟨?_, ?_, ?_⟩
  · rw [hA]
    exact ⟨rfl, rfl, rfl, rfl⟩
  · rw [hB]
    exact ⟨rfl, rfl, rfl, rfl⟩
  · intro n
    have h0 : RunningOn pomodoroWorkflow pomodoroStarted := by
      rw [hs1]
      exact ⟨rfl, rfl, rfl,
        ⟨pomodoroWork, by simp [pomodoroWorkflow], rfl⟩,
        ⟨1500, rfl, by norm_num⟩⟩
    have h := runningOn_tickN pomodoroWorkflow rfl (by decide) n
      pomodoroStarted h0
    rw [h.2.1]
    simp

/-- C2: evaluation of the code at the failing input.  After the
one-phase non-repeatable workflow [("Work",1)] is started and its 60
ticks elapse, the engine reaches Completed, but the tick-exhaustion
branch has executed `return`, ending timer_logic_task: every subsequent
Start command (indeed every subsequent input) leaves the snapshot
unchanged, so the engine never transitions to Running again, contrary to
the specified behavior. -/
theorem c2_completed_start_ignored :
    singleCompleted.info.state = .completed
    ∧ singleCompleted.halted = true
    ∧ (∀ (now : Int) (w : Option Workflow) (st : Option Status),
        step now singleCompleted (.command (.start w st)) = singleCompleted) := by
  have hstart : step 0 engineInit (.command (.start (some singleWorkflow) none)) =
      ⟨⟨.running, some (Phase.new "Work" 1), some 60, 0, some Status.default,
        some singleWorkflow, some 0, none⟩, false⟩ := by
    decide
  have hsplit : singleCompleted
      = tickN 1 (tickN 59 (step 0 engineInit
          (.command (.start (some singleWorkflow) none)))) := by
    show tickN (59 + 1) _ = _
    exact tickN_add 59 1 _
  have hc : singleCompleted =
      ⟨⟨.completed, none, none, 59, some Status.default,
        some singleWorkflow, some 0, none⟩, true⟩ := by
    rw [hsplit, hstart, tickN_countdown 59 _ 60 rfl rfl (by norm_num)]
    decide
  refine ⟨by rw [hc], by rw [hc], ?_⟩
  intro now w st
  rw [hc]
  rfl

/-- C3, counterexample: on the repeatable two-phase pomodoro workflow, a
Skip issued while the current phase is the last phase ("Break") does not
wrap to phases[0]: it transitions to Completed with the phase cleared. -/
theorem c3_counterexample :
    (run engineInit [(0, .command (.start (some pomodoroWorkflow) none)),
                     (0, .command .skip), (0, .command .skip)]).info.state
      = .completed
    ∧ (run engineInit [(0, .command (.start (some pomodoroWorkflow) none)),
                       (0, .command .skip), (0, .command .skip)]).info.current_phase
      = none
    ∧ ¬ ((run engineInit [(0, .command (.start (some pomodoroWorkflow) none)),
                          (0, .command .skip), (0, .command .skip)]).info.state
          = .running) := by
  decide

/-- C3, amended: the Skip handler advances to the next phase only when
one exists; when the current phase is the last phase of the workflow,
Skip always transitions to Completed, clearing current_phase and
time_remaining, even when the workflow is repeatable — the repeatable
wrap of the tick-exhaustion path is not executed by Skip. -/
theorem c3_amended (now : Int) (s : EngineState) (workflow : Workflow)
    (cp : Phase) (idx : Nat)
    (hh : s.halted = false)
    (hst : s.info.state = .running ∨ s.info.state = .paused)
    (hw : s.info.current_workflow = some workflow)
    (hp : s.info.current_phase = some cp)
    (hrep : workflow.repeatable = true)
    (hpos : position (fun p => p.name == cp.name) workflow.phases = some idx)
    (hlast : ¬ idx + 1 < workflow.phases.length) :
    (step now s (.command .skip)).info.state = .completed
    ∧ (step now s (.command .skip)).info.current_phase = none
    ∧ (step now s (.command .skip)).info.time_remaining = none := by
  have hs : step now s (.command .skip) =
      ⟨{ s.info with state := .completed, current_phase := none,
                     time_remaining := none }, false⟩ := by
    simp [step, hh, applySkip, hst, hw, hp, hpos, hlast]
  rw [hs]
  exact ⟨rfl, rfl, rfl⟩

/-- C3, witness for the amended theorem: after Start and one Skip on the
pomodoro workflow the current phase is the last one ("Break"); a second
Skip completes the workflow. -/
theorem c3_amended_witness :
    (step 0 (run engineInit
        [(0, .command (.start (some pomodoroWorkflow) none)),
         (0, .command .skip)]) (.command .skip)).info.state = .completed
    ∧ (step 0 (run engineInit
        [(0, .command (.start (some pomodoroWorkflow) none)),
         (0, .command .skip)]) (.command .skip)).info.current_phase = none
    ∧ (step 0 (run engineInit
        [(0, .command (.start (some pomodoroWorkflow) none)),
         (0, .command .skip)]) (.command .skip)).info.time_remaining = none :=
  c3_amended 0 _ pomodoroWorkflow pomodoroBreak 1 (by decide) (by decide)
    (by decide) (by decide) rfl (by decide) (by decide)

/-- C4, counterexample: a Skip issued while the current phase's name
("Ghost") is absent from the workflow's phase list is a silent no-op —
the snapshot is unchanged and in particular the state is not reset to
Idle. -/
theorem c4_counterexample :
    step 0 ghostSnapshot (.command .skip) = ghostSnapshot
    ∧ ¬ ((step 0 ghostSnapshot (.command .skip)).info.state = .idle) := by
  decide

/-- C4, amended: only the tick-exhaustion phase-advance treats a missing
current phase as inconsistent state, resetting to Idle, clearing the
phase and timer fields (and stopping the loop); a Skip whose current
phase is not found in the workflow leaves the snapshot entirely
unchanged. -/
theorem c4_amended :
    (∀ (s : EngineState) (workflow : Workflow) (cp : Phase) (r : Int),
       s.halted = false → s.info.state = .running →
       s.info.time_remaining = some r → ¬ 1 < r →
       s.info.current_workflow = some workflow →
       s.info.current_phase = some cp →
       position (fun p => p.name == cp.name) workflow.phases = none →
       step 0 s .tick =
         ⟨{ s.info with state := .idle, current_phase := none,
                        time_remaining := none }, true⟩)
    ∧ (∀ (now : Int) (s : EngineState) (workflow : Workflow) (cp : Phase),
       s.halted = false →
       (s.info.state = .running ∨ s.info.state = .paused) →
       s.info.current_workflow = some workflow →
       s.info.current_phase = some cp →
       position (fun p => p.name == cp.name) workflow.phases = none →
       step now s (.command .skip) = s) := by
  constructor
  · intro s workflow cp r hh hst hr hlt hw hp hpos
    simp [step, hh, applyTick, hst, hr, hlt, phaseAdvanceTick, hw, hp, hpos]
  · intro now s workflow cp hh hst hw hp hpos
    rcases s with ⟨info, halted⟩
    simp only at hh
    subst hh
    simp only at hst hw hp
    simp [step, applySkip, hst, hw, hp, hpos]

/-- C4, witness for the amended theorem: the tick path resets the
inconsistent ghost snapshot to Idle and halts, while the Skip path
leaves it untouched. -/
theorem c4_amended_witness :
    step 0 ghostTickSnapshot .tick =
      ⟨{ ghostTickSnapshot.info with state := .idle, current_phase := none,
                                     time_remaining := none }, true⟩
    ∧ step 0 ghostSnapshot (.command .skip) = ghostSnapshot :=
  ⟨c4_amended.1 ghostTickSnapshot singleWorkflow (Phase.new "Ghost" 5) 1
      rfl rfl rfl (by norm_num) rfl rfl (by decide),
   c4_amended.2 0 ghostSnapshot singleWorkflow (Phase.new "Ghost" 5)
      rfl (Or.inl rfl) rfl rfl (by decide)⟩

/-- C6, counterexample: Stop clears current_phase (it was Some after a
Start and one tick) but leaves elapsed_time at 1 second, so an input
that changes current_phase does not always reset elapsed_time to
zero. -/
theorem c6_counterexample :
    (run engineInit [(0, .command (.start none none)),
                     (0, .tick)]).info.current_phase.isSome
    ∧ (run engineInit [(0, .command (.start none none)), (0, .tick),
                       (0, .command .stop)]).info.current_phase = none
    ∧ (run engineInit [(0, .command (.start none none)), (0, .tick),
                       (0, .command .stop)]).info.elapsed_time = 1
    ∧ ¬ ((run engineInit [(0, .command (.start none none)), (0, .tick),
                          (0, .command .stop)]).info.elapsed_time = 0) := by
  decide

/-- C6, amended: every input that sets current_phase to a different
phase resets elapsed_time to zero, but inputs that clear current_phase
(Stop, workflow completion, inconsistent-state recovery) leave
elapsed_time unchanged, and every input either zeroes elapsed_time,
leaves it unchanged, or increments it by one second; a Start or a
single-phase repeatable wrap may also zero elapsed_time with
current_phase's value unchanged. -/
theorem c6_amended (now : Int) (s : EngineState) (i : Input) :
    ((step now s i).info.current_phase.isSome
        → ¬ (step now s i).info.current_phase = s.info.current_phase
        → (step now s i).info.elapsed_time = 0)
    ∧ (s.info.current_phase.isSome
        → (step now s i).info.current_phase = none
        → (step now s i).info.elapsed_time = s.info.elapsed_time)
    ∧ ((step now s i).info.elapsed_time = 0
        ∨ (step now s i).info.elapsed_time = s.info.elapsed_time
        ∨ (step now s i).info.elapsed_time = s.info.elapsed_time + 1) := by
  unfold step
  split
  · next hh =>
      exact ⟨fun _ h2 => absurd rfl h2, fun h1 h2 => by simp_all,
             Or.inr (Or.inl rfl)⟩
  · next hh =>
      cases i with
      | tick =>
          dsimp only
          unfold applyTick
          split
          · next hst =>
              split
              · next r hr =>
                  split
                  · next h1r =>
                      exact ⟨fun _ h2 => absurd rfl h2,
                             fun h1 h2 => by simp_all, Or.inr (Or.inr rfl)⟩
                  · next h1r =>
                      unfold phaseAdvanceTick
                      split
                      · next workflow current_phase heq1 heq2 =>
                          split
                          · next idx hpos =>
                              split
                              · next hnext =>
                                  exact ⟨fun _ _ => rfl,
                                         fun h1 h2 => by simp_all, Or.inl rfl⟩
                              · split
                                · next hrep =>
                                    exact ⟨fun _ _ => rfl,
                                           fun h1 h2 => by simp_all, Or.inl rfl⟩
                                · next hrep =>
                                    exact ⟨fun h1 _ => by simp_all,
                                           fun _ _ => rfl, Or.inr (Or.inl rfl)⟩
                          · next hpos =>
                              exact ⟨fun h1 _ => by simp_all, fun _ _ => rfl,
                                     Or.inr (Or.inl rfl)⟩
                      · next hcatch =>
                          exact ⟨fun _ h2 => absurd rfl h2,
                                 fun h1 h2 => by simp_all, Or.inr (Or.inl rfl)⟩
              · next hr =>
                  exact ⟨fun _ h2 => absurd rfl h2, fun h1 h2 => by simp_all,
                         Or.inr (Or.inl rfl)⟩
          · next hst =>
              exact ⟨fun _ h2 => absurd rfl h2, fun h1 h2 => by simp_all,
                     Or.inr (Or.inl rfl)⟩
      | command c =>
          cases c with
          | start w st =>
              dsimp only
              unfold applyStart
              dsimp only
              split
              · next phase hph =>
                  exact ⟨fun _ _ => rfl, fun h1 h2 => by simp_all, Or.inl rfl⟩
              · next hph =>
                  exact ⟨fun _ _ => rfl, fun h1 h2 => by simp_all, Or.inl rfl⟩
          | pause =>
              dsimp only
              unfold applyPause
              split
              · exact ⟨fun _ h2 => absurd rfl h2, fun h1 h2 => by simp_all,
                       Or.inr (Or.inl rfl)⟩
              · exact ⟨fun _ h2 => absurd rfl h2, fun h1 h2 => by simp_all,
                       Or.inr (Or.inl rfl)⟩
          | resume =>
              dsimp only
              unfold applyResume
              split
              · exact ⟨fun _ h2 => absurd rfl h2, fun h1 h2 => by simp_all,
                       Or.inr (Or.inl rfl)⟩
              · exact ⟨fun _ h2 => absurd rfl h2, fun h1 h2 => by simp_all,
                       Or.inr (Or.inl rfl)⟩
          | stop =>
              dsimp only
              unfold applyStop
              exact ⟨fun h1 _ => by simp_all, fun _ _ => rfl,
                     Or.inr (Or.inl rfl)⟩
          | skip =>
              dsimp only
              unfold applySkip
              split
              · next hrp =>
                  split
                  · next workflow current_phase heq1 heq2 =>
                      split
                      · next idx hpos =>
                          split
                          · next hnext =>
                              dsimp only
                              split
                              · next hwp =>
                                  exact ⟨fun _ _ => rfl,
                                         fun h1 h2 => by simp_all, Or.inl rfl⟩
                              · next hwp =>
                                  exact ⟨fun _ _ => rfl,
                                         fun h1 h2 => by simp_all, Or.inl rfl⟩
                          · next hnext =>
                              exact ⟨fun h1 _ => by simp_all, fun _ _ => rfl,
                                     Or.inr (Or.inl rfl)⟩
                      · next hpos =>
                          exact ⟨fun _ h2 => absurd rfl h2,
                                 fun h1 h2 => by simp_all, Or.inr (Or.inl rfl)⟩
                  · next hcatch =>
                      exact ⟨fun _ h2 => absurd rfl h2,
                             fun h1 h2 => by simp_all, Or.inr (Or.inl rfl)⟩
              · next hrp =>
                  exact ⟨fun _ h2 => absurd rfl h2, fun h1 h2 => by simp_all,
                         Or.inr (Or.inl rfl)⟩

/-- C6, witness for the amended theorem: at the Stop counterexample
input, the clearing clause applies and elapsed_time is unchanged. -/
theorem c6_amended_witness :
    (step 0 (run engineInit [(0, .command (.start none none)), (0, .tick)])
        (.command .stop)).info.elapsed_time
      = (run engineInit [(0, .command (.start none none)),
                         (0, .tick)]).info.elapsed_time :=
  (c6_amended 0 (run engineInit [(0, .command (.start none none)), (0, .tick)])
      (.command .stop)).2.1 (by decide) (by decide)

theorem i64_u64_roundtrip (x : Int) (hlo : -(2 ^ 63) ≤ x) (hhi : x < 2 ^ 63) :
    i64ofU64 (u64ofI64 x) = x := by
  unfold i64ofU64 u64ofI64
  split <;> omega

theorem timerNew_fields (p : PersistentState) :
    (timerNew p).state = p.timer_state
    ∧ (timerNew p).current_phase = p.current_phase
    ∧ (timerNew p).current_status = p.current_status
    ∧ (timerNew p).current_workflow = p.current_workflow
    ∧ (timerNew p).start_time = p.start_time
    ∧ (timerNew p).elapsed_time = i64ofU64 p.elapsed_seconds
    ∧ (timerNew p).pause_time = none := by
  unfold timerNew
  dsimp only
  split
  · split
    · next ph heq =>
        split
        · exact ⟨by simp_all, by simp_all, rfl, rfl, rfl, rfl, rfl⟩
        · exact ⟨by simp_all, by simp_all, rfl, rfl, rfl, rfl, rfl⟩
    · exact ⟨rfl, rfl, rfl, rfl, rfl, rfl, rfl⟩
  · exact ⟨rfl, rfl, rfl, rfl, rfl, rfl, rfl⟩

theorem timerNew_remaining_running (p : PersistentState) (ph : Phase)
    (hst : p.timer_state = .running) (hp : p.current_phase = some ph) :
    (timerNew p).time_remaining =
      some (max 0 (60 * (ph.duration : Int) - i64ofU64 p.elapsed_seconds)) := by
  unfold timerNew
  dsimp only
  rw [hst, hp]
  simp only [Option.isSome_some, and_true, eq_self_iff_true, if_true]
  split
  · next hlt =>
      have : max 0 (60 * (ph.duration : Int) - i64ofU64 p.elapsed_seconds)
          = 60 * (ph.duration : Int) - i64ofU64 p.elapsed_seconds :=
        max_eq_right (by omega)
      rw [this]
  · next hge =>
      have : max 0 (60 * (ph.duration : Int) - i64ofU64 p.elapsed_seconds) = 0 :=
        max_eq_left (by omega)
      rw [this]

theorem timerNew_remaining_none (p : PersistentState)
    (h : ¬ p.timer_state = .running ∨ p.current_phase = none) :
    (timerNew p).time_remaining = none := by
  unfold timerNew
  dsimp only
  have hcond : ¬ (p.timer_state = .running ∧ p.current_phase.isSome = true) := by
    intro hc
    rcases h with h | h
    · exact h hc.1
    · rw [h] at hc
      exact absurd hc.2 (by simp)
  rw [if_neg hcond]

/-- C7: starting the engine on a persisted record that is Running with a
current phase adopts the persisted state, phase, status, workflow,
start_time and elapsed_time unchanged, and sets time_remaining to
max(0, phase duration - persisted elapsed time); the recovery is a pure
function of the record, so no wall-clock time passed while the process
was down is added. -/
theorem c7_recovery (p : PersistentState) (ph : Phase)
    (hst : p.timer_state = .running)
    (hp : p.current_phase = some ph)
    (hsz : p.elapsed_seconds < 2 ^ 63) :
    (timerNew p).state = .running
    ∧ (timerNew p).current_phase = some ph
    ∧ (timerNew p).current_status = p.current_status
    ∧ (timerNew p).current_workflow = p.current_workflow
    ∧ (timerNew p).start_time = p.start_time
    ∧ (timerNew p).elapsed_time = (p.elapsed_seconds : Int)
    ∧ (timerNew p).time_remaining
        = some (max 0 (60 * (ph.duration : Int) - (p.elapsed_seconds : Int))) := by
  have he : i64ofU64 p.elapsed_seconds = (p.elapsed_seconds : Int) := by
    unfold i64ofU64
    rw [if_pos hsz]
  have hf := timerNew_fields p
  have hr := timerNew_remaining_running p ph hst hp
  rw [he] at hf hr
  exact ⟨by rw [hf.1, hst], by rw [hf.2.1, hp], hf.2.2.1, hf.2.2.2.1,
         hf.2.2.2.2.1, hf.2.2.2.2.2.1, hr⟩

/-- C7, witness: recovery of a concrete Running record with 100 elapsed
seconds on a 25-minute phase. -/
theorem c7_recovery_witness :
    (timerNew ⟨.running, some (Phase.new "Work" 25), none, none, some 7, 100, 0⟩).state
      = .running
    ∧ (timerNew ⟨.running, some (Phase.new "Work" 25), none, none, some 7, 100, 0⟩).current_phase
      = some (Phase.new "Work" 25)
    ∧ (timerNew ⟨.running, some (Phase.new "Work" 25), none, none, some 7, 100, 0⟩).current_status
      = none
    ∧ (timerNew ⟨.running, some (Phase.new "Work" 25), none, none, some 7, 100, 0⟩).current_workflow
      = none
    ∧ (timerNew ⟨.running, some (Phase.new "Work" 25), none, none, some 7, 100, 0⟩).start_time
      = some 7
    ∧ (timerNew ⟨.running, some (Phase.new "Work" 25), none, none, some 7, 100, 0⟩).elapsed_time
      = ((100 : Nat) : Int)
    ∧ (timerNew ⟨.running, some (Phase.new "Work" 25), none, none, some 7, 100, 0⟩).time_remaining
      = some (max 0 (60 * (((Phase.new "Work" 25).duration : Nat) : Int)
          - ((100 : Nat) : Int))) :=
  c7_recovery ⟨.running, some (Phase.new "Work" 25), none, none, some 7, 100, 0⟩
    (Phase.new "Work" 25) rfl rfl (by norm_num)

/-- C9: saving a snapshot through the persistence bridge and reloading
it through the recovery path reproduces state, current_phase,
current_workflow, current_status, start_time and elapsed_time exactly;
time_remaining is not stored: it is recomputed by the recovery rule
(max(0, duration - elapsed) when Running with a phase, None otherwise),
and pause_time is dropped. -/
theorem c9_roundtrip (info : TimerInfo) (now : Int)
    (hlo : -(2 ^ 63) ≤ info.elapsed_time) (hhi : info.elapsed_time < 2 ^ 63) :
    (timerNew (saveRecord info now)).state = info.state
    ∧ (timerNew (saveRecord info now)).current_phase = info.current_phase
    ∧ (timerNew (saveRecord info now)).current_workflow = info.current_workflow
    ∧ (timerNew (saveRecord info now)).current_status = info.current_status
    ∧ (timerNew (saveRecord info now)).start_time = info.start_time
    ∧ (timerNew (saveRecord info now)).elapsed_time = info.elapsed_time
    ∧ (timerNew (saveRecord info now)).pause_time = none
    ∧ (∀ ph, info.current_phase = some ph → info.state = .running →
        (timerNew (saveRecord info now)).time_remaining
          = some (max 0 (60 * (ph.duration : Int) - info.elapsed_time)))
    ∧ ((¬ info.state = .running ∨ info.current_phase = none) →
        (timerNew (saveRecord info now)).time_remaining = none) := by
  have he : i64ofU64 (u64ofI64 info.elapsed_time) = info.elapsed_time :=
    i64_u64_roundtrip info.elapsed_time hlo hhi
  have hf := timerNew_fields (saveRecord info now)
  have hsf : (saveRecord info now).timer_state = info.state := rfl
  have hpf : (saveRecord info now).current_phase = info.current_phase := rfl
  have hstf : (saveRecord info now).current_status = info.current_status := rfl
  have hwf : (saveRecord info now).current_workflow = info.current_workflow := rfl
  have htf : (saveRecord info now).start_time = info.start_time := rfl
  have hef : (saveRecord info now).elapsed_seconds = u64ofI64 info.elapsed_time :=
    rfl
  refine ⟨by rw [hf.1, hsf], by rw [hf.2.1, hpf], by rw [hf.2.2.2.1, hwf],
          by rw [hf.2.2.1, hstf], by rw [hf.2.2.2.2.1, htf],
          by rw [hf.2.2.2.2.2.1, hef, he],
          hf.2.2.2.2.2.2, ?_, ?_⟩
  · intro ph hph hrun
    have := timerNew_remaining_running (saveRecord info now) ph
      (by rw [hsf, hrun]) (by rw [hpf, hph])
    rw [hef, he] at this
    exact this
  · intro hcon
    exact timerNew_remaining_none (saveRecord info now) (by
      rcases hcon with hcon | hcon
      · exact Or.inl (by rw [hsf]; exact hcon)
      · exact Or.inr (by rw [hpf, hcon]))

/-- C9, witness: round trip of a concrete Paused snapshot. -/
theorem c9_roundtrip_witness :
    (timerNew (saveRecord ⟨.paused, some (Phase.new "Work" 25), some 100, 7,
        none, none, some 3, some 9⟩ 11)).state = .paused
    ∧ (timerNew (saveRecord ⟨.paused, some (Phase.new "Work" 25), some 100, 7,
        none, none, some 3, some 9⟩ 11)).current_phase
      = some (Phase.new "Work" 25)
    ∧ (timerNew (saveRecord ⟨.paused, some (Phase.new "Work" 25), some 100, 7,
        none, none, some 3, some 9⟩ 11)).elapsed_time = 7
    ∧ (timerNew (saveRecord ⟨.paused, some (Phase.new "Work" 25), some 100, 7,
        none, none, some 3, some 9⟩ 11)).time_remaining = none :=
  have h := c9_roundtrip ⟨.paused, some (Phase.new "Work" 25), some 100, 7,
    none, none, some 3, some 9⟩ 11 (by norm_num) (by norm_num)
  ⟨h.1, h.2.1, h.2.2.2.2.2.1, h.2.2.2.2.2.2.2.2 (Or.inl (by decide))⟩

/-- C10: engine start-up recovery always drops pause_time, and only a
Running record with a current phase gets a recomputed time_remaining; a
record persisted while Paused is recovered with time_remaining = None
and pause_time = None, and time_remaining is still None after a
subsequent Resume. -/
theorem c10_recovery_paused (p : PersistentState) :
    (timerNew p).pause_time = none
    ∧ ((¬ p.timer_state = .running ∨ p.current_phase = none) →
        (timerNew p).time_remaining = none)
    ∧ (p.timer_state = .paused →
        (timerNew p).time_remaining = none
        ∧ (∀ now : Int,
            (step now ⟨timerNew p, false⟩ (.command .resume)).info.time_remaining
              = none)) := by
  have hf := timerNew_fields p
  refine ⟨hf.2.2.2.2.2.2, timerNew_remaining_none p, ?_⟩
  intro hpaused
  have hrem : (timerNew p).time_remaining = none :=
    timerNew_remaining_none p (Or.inl (by rw [hpaused]; simp))
  refine ⟨hrem, ?_⟩
  intro now
  have hstate : (timerNew p).state = .paused := by rw [hf.1, hpaused]
  show (⟨applyResume (timerNew p), false⟩ : EngineState).info.time_remaining = none
  unfold applyResume
  rw [if_pos hstate]
  exact hrem

/-- C10, witness: recovery of the concrete Paused record, then Resume. -/
theorem c10_recovery_paused_witness :
    (timerNew pausedRecord).pause_time = none
    ∧ (timerNew pausedRecord).time_remaining = none
    ∧ (step 5 ⟨timerNew pausedRecord, false⟩
        (.command .resume)).info.time_remaining = none :=
  have h := c10_recovery_paused pausedRecord
  ⟨h.1, (h.2.2 rfl).1, (h.2.2 rfl).2 5⟩

end TomatoClock
